import Mathlib

/-!
Shallow embedding of the subway-therapy note wall core: the geometry module
(overlap math from src/lib/types.ts), the note store (src/lib/storage.ts and
convex/notes.ts), the rate-limit gate (src/lib/session.ts, src/lib/rateLimit.ts
and convex/rateLimits.ts), the moderation classifier adapter
(src/lib/moderation.ts), and the submission pipeline
(POST of src/app/api/notes/route.ts).  JavaScript numbers are modelled as
exact rationals, millisecond timestamps as integers.
-/

namespace SubwayTherapy

/-- Moderation status enumeration from src/lib/types.ts. -/
inductive ModerationStatus where
  | pending
  | approved
  | rejected
  | flagged
deriving DecidableEq, Repr

/-- StickyNote entity from src/lib/types.ts (colors kept as plain strings). -/
structure StickyNote where
  id : String
  imageUrl : String
  color : String
  x : ℚ
  y : ℚ
  rotation : ℚ
  createdAt : String
  moderationStatus : ModerationStatus
  flagCount : ℕ
  sessionId : String
deriving DecidableEq, Repr

/-- ViewportBounds from src/lib/types.ts. -/
structure ViewportBounds where
  minX : ℚ
  maxX : ℚ
  minY : ℚ
  maxY : ℚ
deriving DecidableEq, Repr

/-- MAX_OVERLAP_PERCENTAGE constant from src/lib/types.ts. -/
def MAX_OVERLAP_PERCENTAGE : ℚ := 0.25

/-- WALL_CONFIG.noteWidth from src/lib/types.ts. -/
def configNoteWidth : ℚ := 150

/-- WALL_CONFIG.noteHeight from src/lib/types.ts. -/
def configNoteHeight : ℚ := 150

/-- calculateOverlapPercentage from src/lib/types.ts: fraction of the new
note's own area covered by the intersection with an existing note.  Both
rectangles get the same width and height, exactly as in the source. -/
def calculateOverlapPercentage (newX newY existingX existingY w h : ℚ) : ℚ :=
  let left := max newX existingX
  let right := min (newX + w) (existingX + w)
  let top := max newY existingY
  let bottom := min (newY + h) (existingY + h)
  if right ≤ left ∨ bottom ≤ top then 0
  else (right - left) * (bottom - top) / (w * h)

/-- getMaxOverlapWithNotes from src/lib/types.ts: running maximum of the
overlap against each existing note, at the default note dimensions. -/
def getMaxOverlapWithNotes (newX newY : ℚ) (existingNotes : List (ℚ × ℚ)) : ℚ :=
  existingNotes.foldl
    (fun maxOverlap note =>
      let overlap := calculateOverlapPercentage newX newY note.1 note.2 configNoteWidth configNoteHeight
      if maxOverlap < overlap then overlap else maxOverlap)
    0

/-- isPlacementValid from src/lib/types.ts. -/
def isPlacementValid (newX newY : ℚ) (existingNotes : List (ℚ × ℚ)) (maxOverlap : ℚ) : Bool :=
  getMaxOverlapWithNotes newX newY existingNotes ≤ maxOverlap

/-- Mathematical axis-aligned intersection area of the two equal-sized
rectangles, used to state what calculateOverlapPercentage computes. -/
def intersectionArea (newX newY existingX existingY w h : ℚ) : ℚ :=
  max 0 (min (newX + w) (existingX + w) - max newX existingX) *
    max 0 (min (newY + h) (existingY + h) - max newY existingY)

/-- Filter predicate of getNotesInViewport from src/lib/storage.ts (the
variant also used by convex/notes.ts getNotesInViewport): keep approved and
pending notes whose position lies in the bounds padded by 200 on all sides. -/
def viewportKeep (bounds : ViewportBounds) (note : StickyNote) : Bool :=
  if note.moderationStatus ≠ ModerationStatus.approved ∧
      note.moderationStatus ≠ ModerationStatus.pending then
    false
  else
    let padding : ℚ := 200
    decide (bounds.minX - padding ≤ note.x ∧ note.x ≤ bounds.maxX + padding ∧
      bounds.minY - padding ≤ note.y ∧ note.y ≤ bounds.maxY + padding)

/-- getNotesInViewport from src/lib/storage.ts, iterating the store's notes. -/
def getNotesInViewport (notes : List StickyNote) (bounds : ViewportBounds) : List StickyNote :=
  notes.filter (viewportKeep bounds)

/-- Store contents as an association list from note id to note, standing for
the notesStore Map of src/lib/storage.ts. -/
abbrev NotesStore := List (String × StickyNote)

/-- Map.set on the store: replace the binding for the id, or append it. -/
def storeSet : NotesStore → String → StickyNote → NotesStore
  | [], id, n => [(id, n)]
  | (k, v) :: rest, id, n =>
    if k = id then (id, n) :: rest else (k, v) :: storeSet rest id n

/-- Core update of flagNote from src/lib/storage.ts (same logic as the
convex/notes.ts flagNote mutation): increment flagCount, and transition an
approved note to flagged when the new count reaches 3. -/
def applyFlag (note : StickyNote) : StickyNote :=
  let newFlagCount := note.flagCount + 1
  if 3 ≤ newFlagCount ∧ note.moderationStatus = ModerationStatus.approved then
    { note with flagCount := newFlagCount, moderationStatus := ModerationStatus.flagged }
  else
    { note with flagCount := newFlagCount }

/-- flagNote from src/lib/storage.ts: look the note up, apply the flag
update, and write it back; null when the id is absent. -/
def flagNote (store : NotesStore) (id : String) : Option StickyNote × NotesStore :=
  match store.lookup id with
  | none => (none, store)
  | some note => (some (applyFlag note), storeSet store id (applyFlag note))

/-- ONE_DAY_MS constant shared by src/lib/session.ts, src/lib/rateLimit.ts
and convex/rateLimits.ts. -/
def ONE_DAY_MS : ℤ := 24 * 60 * 60 * 1000

/-- Result shape of the rate-limit gate, shared by both strategies. -/
structure RateCheck where
  canPost : Bool
  reason : Option String
  timeUntilNextPost : Option ℤ
deriving DecidableEq, Repr

/-- canUserPostNote from src/lib/session.ts (cookie strategy), with the
last-note cookie timestamp and the current clock passed explicitly. -/
def canUserPostNote (lastNoteTime : Option ℤ) (now : ℤ) : RateCheck :=
  match lastNoteTime with
  | none => ⟨true, none, none⟩
  | some lastNoteDate =>
    let timeSinceLastNote := now - lastNoteDate
    if timeSinceLastNote < ONE_DAY_MS then
      ⟨false, some "Only one note per person per day!", some (ONE_DAY_MS - timeSinceLastNote)⟩
    else
      ⟨true, none, none⟩

/-- canPost query from convex/rateLimits.ts (hashed-identity strategy):
records are the createdAt timestamps stored for the identifier's hash. -/
def convexCanPost (records : List ℤ) (now : ℤ) : RateCheck :=
  let oneDayAgo := now - ONE_DAY_MS
  let recentRecords := records.filter (fun t => decide (oneDayAgo ≤ t))
  match recentRecords with
  | [] => ⟨true, none, none⟩
  | r :: rs =>
    let mostRecent := rs.foldl (fun latest t => if latest < t then t else latest) r
    ⟨false, some "Only one note per person per day!",
      some (max 0 (mostRecent + ONE_DAY_MS - now))⟩

/-- checkInMemoryRateLimit from src/lib/rateLimit.ts (development fallback of
the hashed-identity strategy). -/
def checkInMemoryRateLimit (lastSubmission : Option ℤ) (now : ℤ) : RateCheck :=
  match lastSubmission with
  | none => ⟨true, none, none⟩
  | some last =>
    let timeSinceLastNote := now - last
    if timeSinceLastNote < ONE_DAY_MS then
      ⟨false, some "Only one note per person per day!", some (ONE_DAY_MS - timeSinceLastNote)⟩
    else
      ⟨true, none, none⟩

/-- ModerationResult record from src/lib/moderation.ts. -/
structure ModerationResult where
  approved : Bool
  reason : String
  confidence : ℚ
  inputTokens : ℕ
  outputTokens : ℕ
deriving DecidableEq, Repr

/-- Parsed JSON object extracted from the classifier's response text in
moderateImage (fields decision / reason / confidence). -/
structure ParsedDecision where
  decision : String
  reason : String
  confidence : ℚ
deriving DecidableEq, Repr

/-- Outcome of the response-parsing step of moderateImage: either a first
balanced JSON object was found and parsed, or the keyword fallback scans the
raw text for the token APPROVED. -/
inductive ParseOutcome where
  | structured (p : ParsedDecision)
  | keywordFallback (hasApproved : Bool)
deriving DecidableEq, Repr

/-- Successful generateText invocation as seen by moderateImage: the parse
outcome of its text together with reported token usage (0 when absent). -/
structure GenerationSuccess where
  parsed : ParseOutcome
  inputTokens : ℕ
  outputTokens : ℕ
deriving DecidableEq, Repr

/-- moderateImage from src/lib/moderation.ts: normalises the classifier call
into a ModerationResult, failing closed (approved false, confidence 0) when
the invocation itself errors. -/
def moderateImage : Except Unit GenerationSuccess → ModerationResult
  | Except.error _ =>
    ⟨false, "AI moderation unavailable - requires manual review", 0, 0, 0⟩
  | Except.ok g =>
    let parsed : ParsedDecision :=
      match g.parsed with
      | ParseOutcome.structured p => p
      | ParseOutcome.keywordFallback hasApproved =>
        ⟨if hasApproved then "APPROVED" else "REJECTED",
          "Could not parse structured response", 0.5⟩
    ⟨decide (parsed.decision = "APPROVED"), parsed.reason, parsed.confidence,
      g.inputTokens, g.outputTokens⟩

/-- String.startsWith as the handler uses it, modelled as a character
prefix test. -/
def startsWith (s p : String) : Bool :=
  p.data.isPrefixOf s.data

/-- CONFIDENCE_THRESHOLD constant from the POST handler of
src/app/api/notes/route.ts. -/
def CONFIDENCE_THRESHOLD : ℚ := 0.8

/-- CreateNoteRequest body from src/lib/types.ts. -/
structure CreateNoteRequest where
  imageData : String
  color : String
  x? : Option ℚ
  y? : Option ℚ
deriving DecidableEq, Repr

/-- Environment of one POST /api/notes invocation: results of the impure
collaborators the handler calls, passed explicitly. -/
structure PostEnv where
  postCheck : RateCheck
  sessionId : String
  noteId : String
  uploadResult : Except Unit String
  moderationOutcome : Except Unit ModerationResult
  autoPosition : ℚ × ℚ
  rotation : ℚ
  createdAt : String
  storeOk : Bool
deriving Repr

/-- Responses the POST handler can produce (429 / 400 / 500 / 200). -/
inductive PostResponse where
  | rateLimited (reason : Option String) (timeUntilNextPost : Option ℤ)
  | badRequest (error : String)
  | serverError (error : String)
  | success (id : String) (color : String) (x y : ℚ) (status : ModerationStatus)
      (message : String)
deriving DecidableEq, Repr

/-- Whether a response is the 200 success shape. -/
def PostResponse.isSuccess : PostResponse → Bool
  | PostResponse.success _ _ _ _ _ _ => true
  | _ => false

/-- Result of one POST invocation: the response, the note written to the
store (if any), and whether recordNoteSubmission ran. -/
structure PostOutcome where
  response : PostResponse
  created : Option StickyNote
  recorded : Bool
deriving DecidableEq, Repr

/-- Status assignment step of the POST handler: adopt the classifier verdict
at confidence at least the threshold, stay pending otherwise or when the
moderateImage call threw (its catch block). -/
def classifyStatus : Except Unit ModerationResult → ModerationStatus × String
  | Except.error _ => (ModerationStatus.pending, "")
  | Except.ok m =>
    if CONFIDENCE_THRESHOLD ≤ m.confidence then
      (if m.approved then ModerationStatus.approved else ModerationStatus.rejected, m.reason)
    else
      (ModerationStatus.pending, "")

/-- User-facing message chosen at the end of the POST handler. -/
def postMessage (status : ModerationStatus) (moderationReason : String) : String :=
  match status with
  | ModerationStatus.approved => "Note posted and approved! It\x27s now visible on the wall."
  | ModerationStatus.rejected =>
    "Note was not approved: " ++
      (if moderationReason = "" then "Content does not meet community guidelines."
        else moderationReason)
  | _ => "Note posted! It will be visible to others after moderation."

/-- POST handler of src/app/api/notes/route.ts: rate-limit check, payload
validation, size ceiling, upload, moderation, position resolution, store
write, then rate-limit recording.  The handler performs no overlap check on
caller-supplied coordinates. -/
def POST (env : PostEnv) (body : CreateNoteRequest) : PostOutcome :=
  if env.postCheck.canPost = false then
    ⟨PostResponse.rateLimited env.postCheck.reason env.postCheck.timeUntilNextPost,
      none, false⟩
  else if body.imageData = "" ∨ body.color = "" then
    ⟨PostResponse.badRequest "Missing required fields", none, false⟩
  else if startsWith body.imageData "data:image/" = false then
    ⟨PostResponse.badRequest "Invalid image data", none, false⟩
  else if (500000 : ℚ) < (body.imageData.length : ℚ) * 0.75 then
    ⟨PostResponse.badRequest "Image too large. Please keep it under 500KB.", none, false⟩
  else
    match env.uploadResult with
    | Except.error _ => ⟨PostResponse.serverError "Failed to upload image", none, false⟩
    | Except.ok imageUrl =>
      let statusAndReason := classifyStatus env.moderationOutcome
      let position : ℚ × ℚ :=
        match body.x?, body.y? with
        | some x, some y => (x, y)
        | _, _ => env.autoPosition
      if env.storeOk = false then
        ⟨PostResponse.serverError "Failed to create note", none, false⟩
      else
        ⟨PostResponse.success env.noteId body.color position.1 position.2 statusAndReason.1
            (postMessage statusAndReason.1 statusAndReason.2),
          some ⟨env.noteId, imageUrl, body.color, position.1, position.2, env.rotation,
            env.createdAt, statusAndReason.1, 0, env.sessionId⟩,
          true⟩

/-- Header inspection order of getClientIP in src/lib/rateLimit.ts. -/
def headerPriority : List String :=
  ["x-forwarded-for", "cf-connecting-ip", "x-real-ip", "x-client-ip", "true-client-ip"]

/-- Split of a character list at a separator character, mirroring
String.split with a one-character separator. -/
def splitOnChar (sep : Char) : List Char → List (List Char)
  | [] => [[]]
  | c :: cs =>
    if c == sep then [] :: splitOnChar sep cs
    else
      match splitOnChar sep cs with
      | [] => [[c]]
      | p :: ps => (c :: p) :: ps

/-- Whitespace test of the trim step. -/
def isWhitespaceChar (c : Char) : Bool :=
  c == ' ' || c == '\t' || c == '\n' || c == '\r'

/-- Trim of leading and trailing whitespace over characters. -/
def trimChars (cs : List Char) : List Char :=
  ((cs.dropWhile isWhitespaceChar).reverse.dropWhile isWhitespaceChar).reverse

/-- Hexadecimal digit test used by the simplified IPv6 pattern. -/
def isHexChar (c : Char) : Bool :=
  c.isDigit || ('a' ≤ c && c ≤ 'f') || ('A' ≤ c && c ≤ 'F')

/-- Shape accepted by the IPv4 regex of isValidIP: four dot-separated groups
of one to three decimal digits. -/
def isIPv4Shape (s : String) : Bool :=
  let parts := splitOnChar '.' s.data
  parts.length == 4 &&
    parts.all (fun p => decide (1 ≤ p.length) && decide (p.length ≤ 3) && p.all Char.isDigit)

/-- Shape accepted by the simplified IPv6 regex of isValidIP: three to eight
colon-separated groups of at most four hex digits. -/
def isIPv6Shape (s : String) : Bool :=
  let parts := splitOnChar ':' s.data
  decide (3 ≤ parts.length) && decide (parts.length ≤ 8) &&
    parts.all (fun p => decide (p.length ≤ 4) && p.all isHexChar)

/-- isValidIP from src/lib/rateLimit.ts. -/
def isValidIP (ip : String) : Bool :=
  isIPv4Shape ip || isIPv6Shape ip || ip == "::1" || ip == "localhost"

/-- Candidate extraction of getClientIP: first comma-separated entry of the
header value, trimmed. -/
def extractCandidate (value : String) : String :=
  String.mk (trimChars ((splitOnChar ',' value.data).headD []))

/-- Loop of getClientIP over the header priority list; request headers are
modelled as an association list. -/
def getClientIPFrom (headers : List (String × String)) : List String → String
  | [] => "unknown-client"
  | name :: rest =>
    match headers.lookup name with
    | some value =>
      if value ≠ "" then
        let ip := extractCandidate value
        if ip ≠ "" ∧ isValidIP ip = true then ip else getClientIPFrom headers rest
      else getClientIPFrom headers rest
    | none => getClientIPFrom headers rest

/-- getClientIP from src/lib/rateLimit.ts. -/
def getClientIP (headers : List (String × String)) : String :=
  getClientIPFrom headers headerPriority

/-- Whether one inspected header yields a syntactically valid IP, mirroring
the acceptance test inside the getClientIP loop. -/
def headerYieldsIP (headers : List (String × String)) (name : String) : Bool :=
  match headers.lookup name with
  | some value =>
    decide (value ≠ "") &&
      (decide (extractCandidate value ≠ "") && isValidIP (extractCandidate value))
  | none => false

/-- hashIdentifier from src/lib/rateLimit.ts, with the SHA-256 hex digest
kept abstract: the identity is the digest of salt, colon, then the IP. -/
def hashIdentifier (sha256hex : String → String) (salt ip : String) : String :=
  sha256hex (salt ++ ":" ++ ip)

/-- recordClientSubmission's in-memory fallback: store the submission time
under the hashed identifier. -/
def recordInMemory (limits : String → Option ℤ) (identifier : String) (now : ℤ) :
    String → Option ℤ :=
  fun k => if k = identifier then some now else limits k

/-- Existing approved note used by the repository's own overlap-rejection
test (src/app/api/notes/route.test.ts). -/
def overlapTestExistingNote : StickyNote :=
  ⟨"existing-note", "https://example.com/1.png", "yellow", 100, 200, 0,
    "2024-01-01T00:00:00.000Z", ModerationStatus.approved, 0, "other-session"⟩

/-- Collaborator results of that test: rate limit open, upload succeeds,
classifier approves with confidence 0.95, store write succeeds. -/
def overlapTestEnv : PostEnv :=
  ⟨⟨true, none, none⟩, "test-session", "test-uuid-1234",
    Except.ok "https://blob.test/image.png",
    Except.ok ⟨true, "Appropriate content", 0.95, 1200, 50⟩,
    (300000, 1000), 0, "2024-01-01T00:00:00.000Z", true⟩

/-- Request body of that test: explicit coordinates equal to the existing
note's position, a full collision. -/
def overlapTestBody : CreateNoteRequest :=
  ⟨"data:image/png;base64,test", "yellow", some 100, some 200⟩

end SubwayTherapy

namespace SubwayTherapy

/-- Claim C7: the overlap fraction is intersection area over the candidate's
own area, zero without proper intersection, and one at identical positions. -/
theorem overlapPercentage_spec (nx ny ex ey w h : ℚ) (hw : 0 < w) (hh : 0 < h) :
    calculateOverlapPercentage nx ny ex ey w h =
      intersectionArea nx ny ex ey w h / (w * h) ∧
    ((min (nx + w) (ex + w) ≤ max nx ex ∨ min (ny + h) (ey + h) ≤ max ny ey) →
      calculateOverlapPercentage nx ny ex ey w h = 0) ∧
    (nx = ex → ny = ey → calculateOverlapPercentage nx ny ex ey w h = 1) := by
  refine ⟨?_, ?_, ?_⟩
  · simp only [calculateOverlapPercentage, intersectionArea]
    rcases le_or_lt (min (nx + w) (ex + w)) (max nx ex) with h1 | h1
    · rw [if_pos (Or.inl h1), max_eq_left (sub_nonpos.mpr h1), zero_mul, zero_div]
    · rcases le_or_lt (min (ny + h) (ey + h)) (max ny ey) with h2 | h2
      · rw [if_pos (Or.inr h2), max_eq_left (sub_nonpos.mpr h2), mul_zero, zero_div]
      · rw [if_neg (by push_neg; exact ⟨h1, h2⟩),
          max_eq_right (sub_nonneg.mpr h1.le), max_eq_right (sub_nonneg.mpr h2.le)]
  · intro hc
    simp only [calculateOverlapPercentage]
    rw [if_pos hc]
  · intro hx hy
    subst hx hy
    simp only [calculateOverlapPercentage, max_self, min_self]
    rw [if_neg (by push_neg; exact ⟨by linarith, by linarith⟩)]
    have hx2 : nx + w - nx = w := by ring
    have hy2 : ny + h - ny = h := by ring
    rw [hx2, hy2, div_self (by positivity)]

/-- Witness for C7 at the fixed 150×150 note size and coincident rectangles. -/
theorem overlapPercentage_spec_witness :
    calculateOverlapPercentage 100 200 100 200 150 150 = 1 :=
  (overlapPercentage_spec 100 200 100 200 150 150 (by norm_num) (by norm_num)).2.2 rfl rfl

/-- Claim C8: with both rectangles at the same width and height (as the
function always imposes), the overlap fraction is symmetric in the two
positions. -/
theorem overlapPercentage_symm (ax ay bx bY w h : ℚ) :
    calculateOverlapPercentage ax ay bx bY w h =
      calculateOverlapPercentage bx bY ax ay w h := by
  unfold calculateOverlapPercentage
  rw [max_comm ax bx, max_comm ay bY, min_comm (ax + w) (bx + w), min_comm (ay + h) (bY + h)]

/-- Characterisation of the viewport filter predicate. -/
theorem viewportKeep_iff (bounds : ViewportBounds) (note : StickyNote) :
    viewportKeep bounds note = true ↔
      (note.moderationStatus = ModerationStatus.approved ∨
        note.moderationStatus = ModerationStatus.pending) ∧
      bounds.minX - 200 ≤ note.x ∧ note.x ≤ bounds.maxX + 200 ∧
      bounds.minY - 200 ≤ note.y ∧ note.y ≤ bounds.maxY + 200 := by
  cases h : note.moderationStatus <;> simp [viewportKeep, h]

/-- Claim C2: the region query returns exactly the approved/pending notes of
the store whose position lies in the bounds padded by 200 on every side;
rejected and flagged notes are never returned. -/
theorem getNotesInViewport_spec (notes : List StickyNote) (bounds : ViewportBounds)
    (note : StickyNote) :
    (note ∈ getNotesInViewport notes bounds ↔
      note ∈ notes ∧
        (note.moderationStatus = ModerationStatus.approved ∨
          note.moderationStatus = ModerationStatus.pending) ∧
        bounds.minX - 200 ≤ note.x ∧ note.x ≤ bounds.maxX + 200 ∧
        bounds.minY - 200 ≤ note.y ∧ note.y ≤ bounds.maxY + 200) ∧
    (note.moderationStatus = ModerationStatus.rejected ∨
        note.moderationStatus = ModerationStatus.flagged →
      note ∉ getNotesInViewport notes bounds) := by
  constructor
  · rw [getNotesInViewport, List.mem_filter, viewportKeep_iff]
  · intro hst hmem
    rw [getNotesInViewport, List.mem_filter, viewportKeep_iff] at hmem
    rcases hst with hst | hst <;> rcases hmem.2.1 with hok | hok <;> rw [hst] at hok <;>
      exact ModerationStatus.noConfusion hok

/-- Witness for C2: a concrete rejected note inside the bounds is excluded
from the region query. -/
theorem getNotesInViewport_spec_witness :
    (⟨"r1", "", "yellow", 0, 0, 0, "", ModerationStatus.rejected, 0, "s"⟩ : StickyNote) ∉
      getNotesInViewport [⟨"r1", "", "yellow", 0, 0, 0, "", ModerationStatus.rejected, 0, "s"⟩]
        ⟨-100, 100, -100, 100⟩ :=
  (getNotesInViewport_spec [⟨"r1", "", "yellow", 0, 0, 0, "", ModerationStatus.rejected, 0, "s"⟩]
    ⟨-100, 100, -100, 100⟩ ⟨"r1", "", "yellow", 0, 0, 0, "", ModerationStatus.rejected, 0, "s"⟩).2
    (Or.inl rfl)

/-- Claim C3: flagging an existing note increments flagCount by one, and
moves the status to flagged exactly when the new count reaches 3 while the
note is approved; three flags from a fresh approved note escalate on the
third, and a pending note stays pending. -/
theorem flagNote_spec (store : NotesStore) (id : String) (note : StickyNote)
    (hlookup : store.lookup id = some note) :
    (flagNote store id).1 = some (applyFlag note) ∧
    (applyFlag note).flagCount = note.flagCount + 1 ∧
    (applyFlag note).moderationStatus =
      (if 3 ≤ note.flagCount + 1 ∧ note.moderationStatus = ModerationStatus.approved then
        ModerationStatus.flagged
      else note.moderationStatus) ∧
    (note.flagCount = 0 → note.moderationStatus = ModerationStatus.approved →
      (applyFlag note).moderationStatus = ModerationStatus.approved ∧
      (applyFlag (applyFlag note)).moderationStatus = ModerationStatus.approved ∧
      (applyFlag (applyFlag (applyFlag note))).moderationStatus = ModerationStatus.flagged) ∧
    (note.flagCount = 0 → note.moderationStatus = ModerationStatus.pending →
      (applyFlag (applyFlag (applyFlag note))).moderationStatus = ModerationStatus.pending ∧
      (applyFlag (applyFlag (applyFlag note))).flagCount = 3) := by
  refine ⟨by simp [flagNote, hlookup], ?_, ?_, ?_, ?_⟩
  · simp only [applyFlag]
    split_ifs <;> rfl
  · simp only [applyFlag]
    split_ifs <;> rfl
  · intro hcount hstatus
    simp [applyFlag, hcount, hstatus]
  · intro hcount hstatus
    simp [applyFlag, hcount, hstatus]

/-- Witness for C3: flagging a concrete approved note held in a one-entry
store increments its flag count from 0 to 1. -/
theorem flagNote_spec_witness :
    (applyFlag ⟨"n1", "", "yellow", 0, 0, 0, "", ModerationStatus.approved, 0, "s"⟩).flagCount
      = 0 + 1 :=
  (flagNote_spec [("n1", ⟨"n1", "", "yellow", 0, 0, 0, "", ModerationStatus.approved, 0, "s"⟩)]
    "n1" ⟨"n1", "", "yellow", 0, 0, 0, "", ModerationStatus.approved, 0, "s"⟩ rfl).2.1

/-- Upper bound for the latest-record fold of convexCanPost. -/
theorem foldl_latest_le (b : ℤ) :
    ∀ (rs : List ℤ) (r : ℤ), r ≤ b → (∀ t ∈ rs, t ≤ b) →
      rs.foldl (fun latest t => if latest < t then t else latest) r ≤ b
  | [], r, hr, _ => hr
  | t :: ts, r, hr, hall => by
    simp only [List.foldl_cons]
    refine foldl_latest_le b ts _ ?_ (fun u hu => hall u (by simp [hu]))
    split
    · exact hall t (by simp)
    · exact hr

/-- Lower bounds for the latest-record fold of convexCanPost. -/
theorem le_foldl_latest :
    ∀ (rs : List ℤ) (r : ℤ),
      r ≤ rs.foldl (fun latest t => if latest < t then t else latest) r ∧
      ∀ t ∈ rs, t ≤ rs.foldl (fun latest t => if latest < t then t else latest) r
  | [], r => ⟨le_refl r, by simp⟩
  | t :: ts, r => by
    simp only [List.foldl_cons]
    obtain ⟨h1, h2⟩ := le_foldl_latest ts (if r < t then t else r)
    refine ⟨le_trans (by split <;> omega) h1, ?_⟩
    intro u hu
    rcases List.mem_cons.mp hu with rfl | hu
    · exact le_trans (by split <;> omega) h1
    · exact h2 u hu

/-- Counterexample for claim C4: at exactly 24 hours after the identity's
only recorded submission, the hashed-identity (Convex) gate still rejects,
with a zero (not positive) remaining wait, while the claim demands
acceptance once 24 hours or more have elapsed. -/
theorem rate_limit_exact_boundary_counterexample :
    ONE_DAY_MS - (0 : ℤ) = ONE_DAY_MS ∧
    convexCanPost [0] ONE_DAY_MS =
      ⟨false, some "Only one note per person per day!", some 0⟩ ∧
    canUserPostNote (some 0) ONE_DAY_MS = ⟨true, none, none⟩ := by
  refine ⟨by omega, ?_, ?_⟩
  · rfl
  · rfl

/-- Claim C4 as amended: strictly inside the 24-hour window both strategies
reject with the positive exact remainder; after the window both accept, the
cookie/in-memory strategies already at exactly 24 hours, the Convex strategy
only strictly beyond it. -/
theorem rate_limit_window_amended (records : List ℤ) (last now : ℤ)
    (hmem : last ∈ records) (hmax : ∀ t ∈ records, t ≤ last) :
    (now - last < ONE_DAY_MS →
      canUserPostNote (some last) now =
        ⟨false, some "Only one note per person per day!", some (ONE_DAY_MS - (now - last))⟩ ∧
      checkInMemoryRateLimit (some last) now =
        ⟨false, some "Only one note per person per day!", some (ONE_DAY_MS - (now - last))⟩ ∧
      convexCanPost records now =
        ⟨false, some "Only one note per person per day!", some (ONE_DAY_MS - (now - last))⟩ ∧
      0 < ONE_DAY_MS - (now - last)) ∧
    (ONE_DAY_MS ≤ now - last →
      canUserPostNote (some last) now = ⟨true, none, none⟩ ∧
      checkInMemoryRateLimit (some last) now = ⟨true, none, none⟩) ∧
    (ONE_DAY_MS < now - last →
      convexCanPost records now = ⟨true, none, none⟩) := by
  refine ⟨?_, ?_, ?_⟩
  · intro hlt
    have hcookie : canUserPostNote (some last) now =
        ⟨false, some "Only one note per person per day!", some (ONE_DAY_MS - (now - last))⟩ := by
      simp only [canUserPostNote]
      rw [if_pos hlt]
    have hmemory : checkInMemoryRateLimit (some last) now =
        ⟨false, some "Only one note per person per day!", some (ONE_DAY_MS - (now - last))⟩ := by
      simp only [checkInMemoryRateLimit]
      rw [if_pos hlt]
    refine ⟨hcookie, hmemory, ?_, by omega⟩
    have hlastmem : last ∈ records.filter (fun t => decide (now - ONE_DAY_MS ≤ t)) := by
      rw [List.mem_filter]
      exact ⟨hmem, by simp; omega⟩
    obtain ⟨r, rs, hcons⟩ :
        ∃ r rs, records.filter (fun t => decide (now - ONE_DAY_MS ≤ t)) = r :: rs := by
      cases hF : records.filter (fun t => decide (now - ONE_DAY_MS ≤ t)) with
      | nil => rw [hF] at hlastmem; simp at hlastmem
      | cons a b => exact ⟨a, b, rfl⟩
    have hsub : ∀ t ∈ r :: rs, t ≤ last := by
      intro t ht
      rw [← hcons] at ht
      exact hmax t (List.mem_of_mem_filter ht)
    have hfold_le : rs.foldl (fun latest t => if latest < t then t else latest) r ≤ last :=
      foldl_latest_le last rs r (hsub r (by simp)) (fun t ht => hsub t (by simp [ht]))
    have hfold_ge : last ≤ rs.foldl (fun latest t => if latest < t then t else latest) r := by
      rw [hcons] at hlastmem
      rcases List.mem_cons.mp hlastmem with rfl | hlast
      · exact (le_foldl_latest rs last).1
      · exact (le_foldl_latest rs r).2 last hlast
    have hfold : rs.foldl (fun latest t => if latest < t then t else latest) r = last :=
      le_antisymm hfold_le hfold_ge
    simp only [convexCanPost]
    rw [hcons]
    simp only [hfold]
    rw [max_eq_right (by omega)]
    have : last + ONE_DAY_MS - now = ONE_DAY_MS - (now - last) := by omega
    rw [this]
  · intro hge
    constructor
    · simp only [canUserPostNote]
      rw [if_neg (by omega)]
    · simp only [checkInMemoryRateLimit]
      rw [if_neg (by omega)]
  · intro hgt
    have hF : records.filter (fun t => decide (now - ONE_DAY_MS ≤ t)) = [] := by
      rw [List.filter_eq_nil_iff]
      intro t ht
      have := hmax t ht
      simp
      omega
    simp only [convexCanPost]
    rw [hF]

/-- Witness for C4's amended theorem: one record at time 0, second attempt at
time 1 is rejected by the cookie strategy. -/
theorem rate_limit_window_amended_witness :
    canUserPostNote (some 0) 1 =
      ⟨false, some "Only one note per person per day!", some (ONE_DAY_MS - ((1 : ℤ) - 0))⟩ :=
  ((rate_limit_window_amended [0] 0 1 (by simp) (by simp)).1 (by decide)).1

/-- Claim C5: the rate-limit record is written exactly on the success path,
which is also exactly when a note is written to the store; every failing
path leaves the allowance untouched. -/
theorem record_only_after_success (env : PostEnv) (body : CreateNoteRequest) :
    (POST env body).recorded = (POST env body).response.isSuccess ∧
    (POST env body).recorded = (POST env body).created.isSome := by
  obtain ⟨postCheck, sessionId, noteId, uploadResult, moderationOutcome, autoPosition,
    rotation, createdAt, storeOk⟩ := env
  cases uploadResult <;>
    simp only [POST] <;>
    split_ifs <;>
    simp [PostResponse.isSuccess]

/-- Claim C6: past upload, the stored initial status adopts the classifier
verdict at confidence at least 0.8 and stays pending below it; a classifier
invocation error yields the fail-closed adapter result (approved false,
confidence 0), a pending note, and still a success response. -/
theorem moderation_threshold_spec (env : PostEnv) (body : CreateNoteRequest)
    (hrl : env.postCheck.canPost = true)
    (himg : body.imageData ≠ "") (hcol : body.color ≠ "")
    (hpre : startsWith body.imageData "data:image/" = true)
    (hsize : ¬ (500000 : ℚ) < (body.imageData.length : ℚ) * 0.75)
    (hup : ∃ url, env.uploadResult = Except.ok url)
    (hstore : env.storeOk = true) :
    (POST env body).response.isSuccess = true ∧
    (∀ n, (POST env body).created = some n →
      n.moderationStatus = (classifyStatus env.moderationOutcome).1) ∧
    (∀ m, env.moderationOutcome = Except.ok m → CONFIDENCE_THRESHOLD ≤ m.confidence →
      (classifyStatus env.moderationOutcome).1 =
        (if m.approved then ModerationStatus.approved else ModerationStatus.rejected)) ∧
    (∀ m, env.moderationOutcome = Except.ok m → m.confidence < CONFIDENCE_THRESHOLD →
      (classifyStatus env.moderationOutcome).1 = ModerationStatus.pending) ∧
    moderateImage (Except.error ()) =
      ⟨false, "AI moderation unavailable - requires manual review", 0, 0, 0⟩ ∧
    (env.moderationOutcome = Except.ok (moderateImage (Except.error ())) →
      ∀ n, (POST env body).created = some n →
        n.moderationStatus = ModerationStatus.pending) := by
  obtain ⟨url, hup⟩ := hup
  have hc1 : ¬ env.postCheck.canPost = false := by simp [hrl]
  have hc2 : ¬ (body.imageData = "" ∨ body.color = "") := by simp [himg, hcol]
  have hc3 : ¬ startsWith body.imageData "data:image/" = false := by simp [hpre]
  have hc5 : ¬ env.storeOk = false := by simp [hstore]
  have hpost : POST env body =
      ⟨PostResponse.success env.noteId body.color
          (match body.x?, body.y? with
            | some x, some y => (x, y)
            | _, _ => env.autoPosition).1
          (match body.x?, body.y? with
            | some x, some y => (x, y)
            | _, _ => env.autoPosition).2
          (classifyStatus env.moderationOutcome).1
          (postMessage (classifyStatus env.moderationOutcome).1
            (classifyStatus env.moderationOutcome).2),
        some ⟨env.noteId, url, body.color,
          (match body.x?, body.y? with
            | some x, some y => (x, y)
            | _, _ => env.autoPosition).1,
          (match body.x?, body.y? with
            | some x, some y => (x, y)
            | _, _ => env.autoPosition).2,
          env.rotation, env.createdAt, (classifyStatus env.moderationOutcome).1, 0,
          env.sessionId⟩,
        true⟩ := by
    simp only [POST, hup, if_neg hc1, if_neg hc2, if_neg hc3, if_neg hsize, if_neg hc5]
  refine ⟨?_, ?_, ?_, ?_, rfl, ?_⟩
  · rw [hpost]
    rfl
  · intro n hn
    rw [hpost] at hn
    simp only [Option.some.injEq] at hn
    rw [← hn]
  · intro m hm hconf
    simp [classifyStatus, hm, hconf]
  · intro m hm hconf
    simp [classifyStatus, hm, not_le.mpr hconf]
  · intro hmod n hn
    rw [hpost] at hn
    simp only [Option.some.injEq] at hn
    rw [← hn]
    simp only [classifyStatus, hmod, moderateImage]
    rw [if_neg (by norm_num [CONFIDENCE_THRESHOLD])]

/-- Witness for C6: concrete happy-path submission with a high-confidence
approval gets a success response. -/
theorem moderation_threshold_spec_witness :
    (POST
      ⟨⟨true, none, none⟩, "s", "id", Except.ok "https://blob.test/i.png",
        Except.ok ⟨true, "ok", 0.95, 1200, 50⟩, (0, 0), 0, "t", true⟩
      ⟨"data:image/png;base64,test", "yellow", none, none⟩).response.isSuccess = true :=
  (moderation_threshold_spec
    ⟨⟨true, none, none⟩, "s", "id", Except.ok "https://blob.test/i.png",
      Except.ok ⟨true, "ok", 0.95, 1200, 50⟩, (0, 0), 0, "t", true⟩
    ⟨"data:image/png;base64,test", "yellow", none, none⟩
    rfl (by decide) (by decide) (by decide)
    (by
      show ¬ (500000 : ℚ) < ((26 : ℕ) : ℚ) * 0.75
      norm_num)
    ⟨"https://blob.test/i.png", rfl⟩ rfl).1

/-- Claim C10: past the earlier validation gates, the handler returns the
image-too-large rejection exactly when the full data-URI string length times
0.75 exceeds 500000, a condition equivalent to 3·length > 2000000 and hence
determined solely by the encoded string's length. -/
theorem image_size_gate_spec (env : PostEnv) (body : CreateNoteRequest)
    (hrl : env.postCheck.canPost = true)
    (himg : body.imageData ≠ "") (hcol : body.color ≠ "")
    (hpre : startsWith body.imageData "data:image/" = true) :
    ((POST env body).response =
        PostResponse.badRequest "Image too large. Please keep it under 500KB." ↔
      (500000 : ℚ) < (body.imageData.length : ℚ) * 0.75) ∧
    ((500000 : ℚ) < (body.imageData.length : ℚ) * 0.75 ↔
      2000000 < 3 * body.imageData.length) ∧
    (∀ body2 : CreateNoteRequest,
      body2.imageData ≠ "" → body2.color ≠ "" →
      startsWith body2.imageData "data:image/" = true →
      body2.imageData.length = body.imageData.length →
      ((POST env body2).response =
          PostResponse.badRequest "Image too large. Please keep it under 500KB." ↔
        (POST env body).response =
          PostResponse.badRequest "Image too large. Please keep it under 500KB.")) := by
  have key : ∀ b : CreateNoteRequest, b.imageData ≠ "" → b.color ≠ "" →
      startsWith b.imageData "data:image/" = true →
      ((POST env b).response =
          PostResponse.badRequest "Image too large. Please keep it under 500KB." ↔
        (500000 : ℚ) < (b.imageData.length : ℚ) * 0.75) := by
    intro b hb1 hb2 hb3
    have hc1 : ¬ env.postCheck.canPost = false := by simp [hrl]
    have hc2 : ¬ (b.imageData = "" ∨ b.color = "") := by simp [hb1, hb2]
    have hc3 : ¬ startsWith b.imageData "data:image/" = false := by simp [hb3]
    by_cases hsz : (500000 : ℚ) < (b.imageData.length : ℚ) * 0.75
    · simp only [POST, if_neg hc1, if_neg hc2, if_neg hc3, if_pos hsz]
      simp [hsz]
    · simp only [POST, if_neg hc1, if_neg hc2, if_neg hc3, if_neg hsz]
      cases env.uploadResult with
      | error e => simp [hsz]
      | ok url =>
        by_cases hst : env.storeOk = false
        · simp [hst, hsz]
        · simp [hst, hsz]
  refine ⟨key body himg hcol hpre, ?_, ?_⟩
  · have h075 : (0.75 : ℚ) = 3 / 4 := by norm_num
    rw [h075]
    constructor
    · intro h
      have h2 : (2000000 : ℚ) < 3 * (body.imageData.length : ℚ) := by linarith
      exact_mod_cast h2
    · intro h
      have h2 : (2000000 : ℚ) < 3 * (body.imageData.length : ℚ) := by exact_mod_cast h
      linarith
  · intro body2 h1 h2 h3 hlen
    rw [key body2 h1 h2 h3, key body himg hcol hpre, hlen]

/-- Witness for C10: a 26-character data URI is far below the ceiling, so the
handler does not return the too-large rejection. -/
theorem image_size_gate_spec_witness :
    ¬ (POST
        ⟨⟨true, none, none⟩, "s", "id", Except.ok "https://blob.test/i.png",
          Except.ok ⟨true, "ok", 0.95, 1200, 50⟩, (0, 0), 0, "t", true⟩
        ⟨"data:image/png;base64,test", "yellow", none, none⟩).response =
      PostResponse.badRequest "Image too large. Please keep it under 500KB." := by
  intro hcontra
  exact absurd
    ((image_size_gate_spec
      ⟨⟨true, none, none⟩, "s", "id", Except.ok "https://blob.test/i.png",
        Except.ok ⟨true, "ok", 0.95, 1200, 50⟩, (0, 0), 0, "t", true⟩
      ⟨"data:image/png;base64,test", "yellow", none, none⟩
      rfl (by decide) (by decide) (by decide)).1.mp hcontra)
    (by
      show ¬ (500000 : ℚ) < ((26 : ℕ) : ℚ) * 0.75
      norm_num)

/-- Claim C1 (code divergence): with explicit coordinates colliding fully
with an existing approved note — maximum overlap 1, far above the allowed
0.25, a placement isPlacementValid rejects — the POST handler still
succeeds, creates the note at those coordinates, and records the rate-limit
submission: it never consults the overlap policy. -/
theorem overlap_not_enforced_in_pipeline :
    MAX_OVERLAP_PERCENTAGE <
      getMaxOverlapWithNotes 100 200 [(overlapTestExistingNote.x, overlapTestExistingNote.y)] ∧
    isPlacementValid 100 200 [(overlapTestExistingNote.x, overlapTestExistingNote.y)]
      MAX_OVERLAP_PERCENTAGE = false ∧
    (POST overlapTestEnv overlapTestBody).response.isSuccess = true ∧
    (POST overlapTestEnv overlapTestBody).created =
      some ⟨"test-uuid-1234", "https://blob.test/image.png", "yellow", 100, 200, 0,
        "2024-01-01T00:00:00.000Z", ModerationStatus.approved, 0, "test-session"⟩ ∧
    (POST overlapTestEnv overlapTestBody).recorded = true := by
  have hover : calculateOverlapPercentage 100 200 100 200 configNoteWidth configNoteHeight = 1 := by
    simp only [calculateOverlapPercentage, configNoteWidth, configNoteHeight]
    rw [if_neg (by push_neg; constructor <;> norm_num)]
    norm_num
  have hmax : getMaxOverlapWithNotes 100 200
      [(overlapTestExistingNote.x, overlapTestExistingNote.y)] = 1 := by
    simp only [getMaxOverlapWithNotes, overlapTestExistingNote, List.foldl, hover]
    norm_num
  have hclass : classifyStatus (Except.ok ⟨true, "Appropriate content", 0.95, 1200, 50⟩) =
      (ModerationStatus.approved, "Appropriate content") := by
    simp only [classifyStatus]
    rw [if_pos (by norm_num [CONFIDENCE_THRESHOLD])]
    simp
  have hpost : POST overlapTestEnv overlapTestBody =
      ⟨PostResponse.success "test-uuid-1234" "yellow" 100 200 ModerationStatus.approved
          (postMessage ModerationStatus.approved "Appropriate content"),
        some ⟨"test-uuid-1234", "https://blob.test/image.png", "yellow", 100, 200, 0,
          "2024-01-01T00:00:00.000Z", ModerationStatus.approved, 0, "test-session"⟩,
        true⟩ := by
    unfold overlapTestEnv overlapTestBody
    simp only [POST, hclass]
    rw [if_neg (by simp), if_neg (by decide), if_neg (by decide),
      if_neg (by
        show ¬ (500000 : ℚ) < (("data:image/png;base64,test").length : ℚ) * 0.75
        rw [show ("data:image/png;base64,test").length = 26 from rfl]
        norm_num),
      if_neg (by simp)]
  refine ⟨?_, ?_, ?_, ?_, ?_⟩
  · rw [hmax]
    norm_num [MAX_OVERLAP_PERCENTAGE]
  · simp only [isPlacementValid, hmax]
    norm_num [MAX_OVERLAP_PERCENTAGE]
  · rw [hpost]
    rfl
  · rw [hpost]
  · rw [hpost]

/-- Absent any header carrying a valid IP, the getClientIP loop falls
through to the constant fallback. -/
theorem getClientIPFrom_unknown (headers : List (String × String)) :
    ∀ names : List String,
      (∀ name ∈ names, headerYieldsIP headers name = false) →
      getClientIPFrom headers names = "unknown-client"
  | [], _ => rfl
  | name :: rest, hall => by
    have hname := hall name (by simp)
    have hrest : ∀ n ∈ rest, headerYieldsIP headers n = false :=
      fun n hn => hall n (by simp [hn])
    simp only [getClientIPFrom]
    cases hlookup : headers.lookup name with
    | none => exact getClientIPFrom_unknown headers rest hrest
    | some value =>
      simp only [headerYieldsIP, hlookup] at hname
      dsimp only
      split_ifs with hv hip
      · exfalso
        simp [hv, hip.1, hip.2] at hname
      · exact getClientIPFrom_unknown headers rest hrest
      · exact getClientIPFrom_unknown headers rest hrest

/-- Claim C9: requests with no syntactically valid IP in any inspected
header all resolve to the constant unknown-client, hash to one shared
rate-limit identity, and therefore share one 24-hour allowance: after one of
them records a submission, any other is rejected within the window. -/
theorem unknown_client_shared_identity (headers1 headers2 : List (String × String))
    (h1 : ∀ name ∈ headerPriority, headerYieldsIP headers1 name = false)
    (h2 : ∀ name ∈ headerPriority, headerYieldsIP headers2 name = false) :
    getClientIP headers1 = "unknown-client" ∧
    getClientIP headers2 = "unknown-client" ∧
    (∀ (sha256hex : String → String) (salt : String),
      hashIdentifier sha256hex salt (getClientIP headers1) =
        hashIdentifier sha256hex salt (getClientIP headers2)) ∧
    (∀ (sha256hex : String → String) (salt : String) (limits : String → Option ℤ)
        (t now : ℤ), now - t < ONE_DAY_MS →
      (checkInMemoryRateLimit
        (recordInMemory limits (hashIdentifier sha256hex salt (getClientIP headers1)) t
          (hashIdentifier sha256hex salt (getClientIP headers2))) now).canPost = false) := by
  have hu1 : getClientIP headers1 = "unknown-client" :=
    getClientIPFrom_unknown headers1 headerPriority h1
  have hu2 : getClientIP headers2 = "unknown-client" :=
    getClientIPFrom_unknown headers2 headerPriority h2
  refine ⟨hu1, hu2, ?_, ?_⟩
  · intro sha256hex salt
    rw [hu1, hu2]
  · intro sha256hex salt limits t now hwin
    rw [hu1, hu2]
    have hrec : recordInMemory limits (hashIdentifier sha256hex salt "unknown-client") t
        (hashIdentifier sha256hex salt "unknown-client") = some t := by
      simp [recordInMemory]
    rw [hrec]
    simp [checkInMemoryRateLimit, hwin]

/-- Witness for C9: a request whose only proxy header carries a non-IP value
resolves to unknown-client. -/
theorem unknown_client_shared_identity_witness :
    getClientIP [("x-forwarded-for", "not-an-ip")] = "unknown-client" :=
  (unknown_client_shared_identity [("x-forwarded-for", "not-an-ip")] []
    (by decide) (by decide)).1

end SubwayTherapy
